import Mathlib

/-!
Verification of the `download_m3u8` process-supervision shim
(`src/m3u8_downloader.py`).

The Python function is embedded as a pure Lean function over an explicit
environment oracle `Env` supplying everything the surrounding world decides:
whether a file exists at a path, the current unix timestamp, and the outcome
of each subprocess attempt (the lines the child writes, its exit code, or a
runtime exception raised while spawning or relaying).  The observable side
effects — spawning the external tool, printing to the console, invoking the
log callback, sleeping between retries — are recorded as an `Event` trace,
and `download_m3u8` returns the boolean result paired with that trace.
-/

namespace M3U8

/-- Outcome of one iteration of the retry loop, as decided by the world:
either the spawned process emits `lines` on its combined stdout/stderr and
terminates with exit code `code`, or a runtime exception with message `msg`
is raised (with `spawned` telling whether `Popen` had already succeeded, and
`lines` the output relayed before the exception). -/
inductive AttemptOutcome where
  | exit (lines : List String) (code : Int)
  | exc (spawned : Bool) (lines : List String) (msg : String)
deriving DecidableEq

/-- The environment oracle: filesystem existence, the clock read by
`time.time()`, and the outcome of each attempt (indexed from 0). -/
structure Env where
  fileExists : String → Bool
  now : Nat
  attempt : Nat → AttemptOutcome

/-- Observable side effects of a run: a subprocess spawn with its argument
vector, a line printed to the console, a message delivered to the log
callback, and a `time.sleep` of the given number of seconds. -/
inductive Event where
  | spawn (cmd : List String)
  | consoleOut (s : String)
  | callbackMsg (s : String)
  | sleep (secs : Int)
deriving DecidableEq

/-- Embedding of the module-level `log` helper: print to the console unless
`quiet`, and deliver the message to the callback when one is supplied. -/
def logEvents (message : String) (quiet hasCallback : Bool) : List Event :=
  (if quiet then [] else [Event.consoleOut message]) ++
  (if hasCallback then [Event.callbackMsg message] else [])

/-- The live relay of the child process output: each produced line is
stripped and printed, unless `quiet`. -/
def relayEvents (lines : List String) (quiet : Bool) : List Event :=
  if quiet then [] else lines.map (fun line => Event.consoleOut line.trim)

/-- Python `str.lower`, applied characterwise. -/
def py_lower (s : String) : String :=
  String.mk (s.data.map Char.toLower)

/-- Python `str.endswith`: suffix test on the character sequence. -/
def py_endswith (s suffix : String) : Bool :=
  decide (suffix.data <:+ s.data)

/-- Embedding of lines 36–43: synthesize `output_<unix-timestamp>.mp4` when
`output_file` is falsy (absent or empty), then append `.mp4` unless the name
already ends in it case-insensitively. -/
def resolveOutput (output_file : Option String) (now : Nat) : String :=
  let f := match output_file with
    | none => "output_" ++ toString now ++ ".mp4"
    | some s => if s = "" then "output_" ++ toString now ++ ".mp4" else s
  if py_endswith (py_lower f) ".mp4" then f else f ++ ".mp4"

/-- The fixed default request headers (lines 46–51). -/
def default_headers : List (String × String) :=
  [("User-Agent", "Mozilla/5.0 (Macintosh; Intel Mac OS X 10_15_7) AppleWebKit/537.36 (KHTML, like Gecko) Chrome/114.0.0.0 Safari/537.36"),
   ("Accept", "text/html,application/xhtml+xml,application/xml;q=0.9,image/webp,*/*;q=0.8"),
   ("Accept-Language", "zh-CN,zh;q=0.9,en;q=0.8"),
   ("Connection", "keep-alive")]

/-- One key/value update of a Python dict viewed as an association list:
an existing key keeps its position and gets the new value, a fresh key is
appended at the end. -/
def dictInsert (d : List (String × String)) (k v : String) : List (String × String) :=
  if d.any (fun p => p.1 = k) then
    d.map (fun p => if p.1 = k then (k, v) else p)
  else
    d ++ [(k, v)]

/-- Python dict merge `\x7b**d, **o\x7d`: the entries of `o` update `d`
left to right, the caller (`o`) winning per key. -/
def dictMerge (d o : List (String × String)) : List (String × String) :=
  o.foldl (fun acc p => dictInsert acc p.1 p.2) d

/-- First-match lookup in an association list (the value a Python dict with
these distinct keys would hold). -/
def dlookup : List (String × String) → String → Option String
  | [], _ => none
  | (k, v) :: rest, key => if k = key then some v else dlookup rest key

/-- Embedding of line 64: the header block
`''.join(f"\x7bk\x7d: \x7bv\x7d\r\n" for ...)` — every `Key: Value` pair is
terminated by CRLF, including the last. -/
def buildHeadersStr (hs : List (String × String)) : String :=
  String.join (hs.map (fun kv => kv.1 ++ ": " ++ kv.2 ++ "\r\n"))

/-- The header block as the claim words it: the `Key: Value` pairs joined
with CRLF separators (no trailing CRLF).  Modelled from the spec sentence
"the CRLF-joined serialization of the merged headers", for comparison with
`buildHeadersStr`. -/
def headersBlockSpec (hs : List (String × String)) : String :=
  String.intercalate "\r\n" (hs.map (fun kv => kv.1 ++ ": " ++ kv.2))

/-- Embedding of lines 65–73: the argument vector handed to `Popen`. -/
def buildCmd (ffmpeg_path headers_str url : String) (timeout : Int)
    (output_file : String) : List String :=
  [ffmpeg_path, "-headers", headers_str, "-i", url, "-c", "copy",
   "-bsf:a", "aac_adtstoasc", "-timeout", toString timeout, output_file]

/-- The per-attempt banner logged at line 78 (`attempt` is 0-indexed, the
banner prints `attempt+1` of `retry+1`). -/
def attemptBanner (i : Nat) (retry : Int) (quiet hasCallback : Bool) : List Event :=
  logEvents
    ("尝试下载 (第 " ++ toString (i + 1) ++ "/" ++ toString (retry + 1) ++ " 次)")
    quiet hasCallback

/-- The post-failure delay (lines 101–103 / 107–109): when the failed
attempt is not the last (`attempt < retry`), log the pending delay and
sleep `retry_delay` seconds; after the final attempt, nothing. -/
def delayEvents (i : Nat) (retry retry_delay : Int)
    (quiet hasCallback : Bool) : List Event :=
  if (i : Int) < retry then
    logEvents ("将在 " ++ toString retry_delay ++ " 秒后重试...") quiet hasCallback ++
      [Event.sleep retry_delay]
  else []

/-- Embedding of the retry loop (lines 76–112), iterating over the remaining
attempt indices.  Each iteration logs the attempt banner, spawns the tool
(when `Popen` succeeds), relays its output, and then classifies: exit code 0
returns `true` at once; a non-zero exit or an exception logs the failure and,
when this is not the last attempt (`attempt < retry`), logs the pending delay
and sleeps.  An exhausted list logs the max-retries message and yields
`false`. -/
def runAttempts (cmd : List String) (output_file : String)
    (quiet hasCallback : Bool) (retry retry_delay : Int)
    (ao : Nat → AttemptOutcome) : List Nat → Bool × List Event
  | [] => (false, logEvents "达到最大重试次数，下载失败" quiet hasCallback)
  | i :: rest =>
    match ao i with
    | .exit lines code =>
      if code = 0 then
        (true,
          attemptBanner i retry quiet hasCallback ++ [Event.spawn cmd] ++
            relayEvents lines quiet ++
            logEvents ("下载完成: " ++ output_file) quiet hasCallback)
      else
        let t := runAttempts cmd output_file quiet hasCallback retry retry_delay ao rest
        (t.1,
          attemptBanner i retry quiet hasCallback ++ [Event.spawn cmd] ++
            relayEvents lines quiet ++
            logEvents ("下载失败，错误码: " ++ toString code) quiet hasCallback ++
            delayEvents i retry retry_delay quiet hasCallback ++ t.2)
    | .exc spawned lines msg =>
      let t := runAttempts cmd output_file quiet hasCallback retry retry_delay ao rest
      (t.1,
        attemptBanner i retry quiet hasCallback ++
          (if spawned then [Event.spawn cmd] else []) ++
          relayEvents lines quiet ++
          logEvents ("下载过程中出错: " ++ msg) quiet hasCallback ++
          delayEvents i retry retry_delay quiet hasCallback ++ t.2)

/-- Embedding of `download_m3u8` (lines 8–112): resolve the output path,
merge the headers, reject an existing output file, build the command line,
and run the retry loop over attempts `0 .. retry` (empty when
`retry + 1 ≤ 0`, matching Python `range`).  Returns the boolean result and
the trace of observable effects. -/
def download_m3u8 (env : Env) (url : String) (output_file : Option String)
    (headers : Option (List (String × String))) (ffmpeg_path : String)
    (timeout : Int) (quiet : Bool) (hasCallback : Bool)
    (retry : Int) (retry_delay : Int) : Bool × List Event :=
  let out := resolveOutput output_file env.now
  let request_headers := dictMerge default_headers (headers.getD [])
  if env.fileExists out then
    (false, logEvents ("文件已存在: " ++ out) quiet hasCallback)
  else
    let headers_str := buildHeadersStr request_headers
    let cmd := buildCmd ffmpeg_path headers_str url timeout out
    let r := runAttempts cmd out quiet hasCallback retry retry_delay env.attempt
      (List.range (retry + 1).toNat)
    (r.1, logEvents ("开始下载: " ++ url) quiet hasCallback ++ r.2)

/-- Did this attempt outcome count as success (exit code exactly 0)? -/
def isSuccess : AttemptOutcome → Bool
  | .exit _ code => code = 0
  | .exc _ _ _ => false

def isSpawn : Event → Bool
  | .spawn _ => true
  | _ => false

def isSleep : Event → Bool
  | .sleep _ => true
  | _ => false

def isConsole : Event → Bool
  | .consoleOut _ => true
  | _ => false

/-- Number of subprocess spawns recorded in a trace. -/
def countSpawns (evs : List Event) : Nat := (evs.filter isSpawn).length

/-- Number of sleeps recorded in a trace. -/
def countSleeps (evs : List Event) : Nat := (evs.filter isSleep).length

/-- The sequence of messages delivered to the log callback. -/
def callbackTrace (evs : List Event) : List String :=
  evs.filterMap (fun e => match e with | Event.callbackMsg s => some s | _ => none)

/-- Everything in a trace except console output: spawns, sleeps and
callback deliveries. -/
def nonConsoleEvents (evs : List Event) : List Event :=
  evs.filter (fun e => !isConsole e)

/-- A concrete world where no output file exists and the tool always exits 1. -/
def envAllFail : Env :=
  ⟨fun _ => false, 0, fun _ => .exit [] 1⟩

/-- A concrete world where no output file exists and the tool always exits 0. -/
def envSucceed : Env :=
  ⟨fun _ => false, 0, fun _ => .exit [] 0⟩

/-- A concrete world where every output path already exists. -/
def envExists : Env :=
  ⟨fun _ => true, 0, fun _ => .exit [] 0⟩

/-- A concrete world where attempt 0 raises before spawning and later
attempts exit 1. -/
def envExc : Env :=
  ⟨fun _ => false, 0, fun k => if k = 0 then .exc false [] "boom" else .exit [] 1⟩

section TraceLemmas

variable {q cb : Bool}

@[simp] theorem filter_isSpawn_logEvents (m : String) :
    (logEvents m q cb).filter isSpawn = [] := by
  cases q <;> cases cb <;> rfl

@[simp] theorem filter_isSleep_logEvents (m : String) :
    (logEvents m q cb).filter isSleep = [] := by
  cases q <;> cases cb <;> rfl

@[simp] theorem filter_isSpawn_relayEvents (lines : List String) :
    (relayEvents lines q).filter isSpawn = [] := by
  cases q
  · rw [relayEvents, if_neg (by simp), List.filter_eq_nil_iff]
    intro a ha
    rcases List.mem_map.mp ha with ⟨s, _, rfl⟩
    simp [isSpawn]
  · rfl

@[simp] theorem filter_isSleep_relayEvents (lines : List String) :
    (relayEvents lines q).filter isSleep = [] := by
  cases q
  · rw [relayEvents, if_neg (by simp), List.filter_eq_nil_iff]
    intro a ha
    rcases List.mem_map.mp ha with ⟨s, _, rfl⟩
    simp [isSleep]
  · rfl

@[simp] theorem callbackTrace_append (a b : List Event) :
    callbackTrace (a ++ b) = callbackTrace a ++ callbackTrace b := by
  simp [callbackTrace]

@[simp] theorem callbackTrace_logEvents (m : String) :
    callbackTrace (logEvents m q cb) = if cb then [m] else [] := by
  cases q <;> cases cb <;> rfl

@[simp] theorem callbackTrace_relayEvents (lines : List String) :
    callbackTrace (relayEvents lines q) = [] := by
  cases q
  · rw [relayEvents, if_neg (by simp)]
    simp [callbackTrace, List.filterMap_map]
  · rfl

@[simp] theorem countSpawns_append (a b : List Event) :
    countSpawns (a ++ b) = countSpawns a + countSpawns b := by
  simp [countSpawns]

@[simp] theorem countSleeps_append (a b : List Event) :
    countSleeps (a ++ b) = countSleeps a + countSleeps b := by
  simp [countSleeps]

@[simp] theorem countSpawns_logEvents (m : String) :
    countSpawns (logEvents m q cb) = 0 := by
  simp [countSpawns]

@[simp] theorem countSleeps_logEvents (m : String) :
    countSleeps (logEvents m q cb) = 0 := by
  simp [countSleeps]

@[simp] theorem countSpawns_relayEvents (lines : List String) :
    countSpawns (relayEvents lines q) = 0 := by
  simp [countSpawns]

@[simp] theorem countSleeps_relayEvents (lines : List String) :
    countSleeps (relayEvents lines q) = 0 := by
  simp [countSleeps]

@[simp] theorem countSpawns_spawn (c : List String) :
    countSpawns [Event.spawn c] = 1 := rfl

@[simp] theorem countSleeps_spawn (c : List String) :
    countSleeps [Event.spawn c] = 0 := rfl

@[simp] theorem countSpawns_sleep (n : Int) :
    countSpawns [Event.sleep n] = 0 := rfl

@[simp] theorem countSleeps_sleep (n : Int) :
    countSleeps [Event.sleep n] = 1 := rfl

@[simp] theorem filter_isSleep_spawn (c : List String) :
    [Event.spawn c].filter isSleep = [] := rfl

@[simp] theorem filter_isSpawn_sleep (n : Int) :
    [Event.sleep n].filter isSpawn = [] := rfl

@[simp] theorem filter_isSleep_sleep (n : Int) :
    [Event.sleep n].filter isSleep = [Event.sleep n] := rfl

@[simp] theorem callbackTrace_spawn (c : List String) :
    callbackTrace [Event.spawn c] = [] := rfl

@[simp] theorem callbackTrace_sleep (n : Int) :
    callbackTrace [Event.sleep n] = [] := rfl

@[simp] theorem countSpawns_cons_spawn (c : List String) (evs : List Event) :
    countSpawns (Event.spawn c :: evs) = countSpawns evs + 1 := rfl

@[simp] theorem countSpawns_cons_console (s : String) (evs : List Event) :
    countSpawns (Event.consoleOut s :: evs) = countSpawns evs := rfl

@[simp] theorem countSpawns_cons_callback (s : String) (evs : List Event) :
    countSpawns (Event.callbackMsg s :: evs) = countSpawns evs := rfl

@[simp] theorem countSpawns_cons_sleep (n : Int) (evs : List Event) :
    countSpawns (Event.sleep n :: evs) = countSpawns evs := rfl

@[simp] theorem countSleeps_cons_spawn (c : List String) (evs : List Event) :
    countSleeps (Event.spawn c :: evs) = countSleeps evs := rfl

@[simp] theorem countSleeps_cons_console (s : String) (evs : List Event) :
    countSleeps (Event.consoleOut s :: evs) = countSleeps evs := rfl

@[simp] theorem countSleeps_cons_callback (s : String) (evs : List Event) :
    countSleeps (Event.callbackMsg s :: evs) = countSleeps evs := rfl

@[simp] theorem countSleeps_cons_sleep (n : Int) (evs : List Event) :
    countSleeps (Event.sleep n :: evs) = countSleeps evs + 1 := rfl

@[simp] theorem filter_isSleep_cons_spawn (c : List String) (evs : List Event) :
    (Event.spawn c :: evs).filter isSleep = evs.filter isSleep := rfl

@[simp] theorem filter_isSleep_cons_console (s : String) (evs : List Event) :
    (Event.consoleOut s :: evs).filter isSleep = evs.filter isSleep := rfl

@[simp] theorem filter_isSleep_cons_callback (s : String) (evs : List Event) :
    (Event.callbackMsg s :: evs).filter isSleep = evs.filter isSleep := rfl

@[simp] theorem filter_isSleep_cons_sleep (n : Int) (evs : List Event) :
    (Event.sleep n :: evs).filter isSleep =
      Event.sleep n :: evs.filter isSleep := rfl

@[simp] theorem callbackTrace_cons_spawn (c : List String) (evs : List Event) :
    callbackTrace (Event.spawn c :: evs) = callbackTrace evs := rfl

@[simp] theorem callbackTrace_cons_console (s : String) (evs : List Event) :
    callbackTrace (Event.consoleOut s :: evs) = callbackTrace evs := rfl

@[simp] theorem callbackTrace_cons_callback (s : String) (evs : List Event) :
    callbackTrace (Event.callbackMsg s :: evs) = s :: callbackTrace evs := rfl

@[simp] theorem callbackTrace_cons_sleep (n : Int) (evs : List Event) :
    callbackTrace (Event.sleep n :: evs) = callbackTrace evs := rfl

@[simp] theorem isSpawn_spawn (c : List String) : isSpawn (Event.spawn c) = true := rfl

@[simp] theorem isSpawn_console (s : String) : isSpawn (Event.consoleOut s) = false := rfl

@[simp] theorem isSpawn_callback (s : String) : isSpawn (Event.callbackMsg s) = false := rfl

@[simp] theorem isSpawn_sleep (n : Int) : isSpawn (Event.sleep n) = false := rfl

@[simp] theorem isSleep_spawn (c : List String) : isSleep (Event.spawn c) = false := rfl

@[simp] theorem isSleep_console (s : String) : isSleep (Event.consoleOut s) = false := rfl

@[simp] theorem isSleep_callback (s : String) : isSleep (Event.callbackMsg s) = false := rfl

@[simp] theorem isSleep_sleep_ev (n : Int) : isSleep (Event.sleep n) = true := rfl

@[simp] theorem isConsole_spawn (c : List String) : isConsole (Event.spawn c) = false := rfl

@[simp] theorem isConsole_console (s : String) : isConsole (Event.consoleOut s) = true := rfl

@[simp] theorem isConsole_callback (s : String) : isConsole (Event.callbackMsg s) = false := rfl

@[simp] theorem isConsole_sleep (n : Int) : isConsole (Event.sleep n) = false := rfl

@[simp] theorem countSpawns_nil : countSpawns [] = 0 := rfl

@[simp] theorem countSleeps_nil : countSleeps [] = 0 := rfl

@[simp] theorem callbackTrace_nil : callbackTrace [] = [] := rfl

@[simp] theorem nonConsoleEvents_nil : nonConsoleEvents [] = [] := rfl

@[simp] theorem nonConsoleEvents_append (a b : List Event) :
    nonConsoleEvents (a ++ b) = nonConsoleEvents a ++ nonConsoleEvents b := by
  simp [nonConsoleEvents]

@[simp] theorem nonConsoleEvents_cons_spawn (c : List String) (evs : List Event) :
    nonConsoleEvents (Event.spawn c :: evs) =
      Event.spawn c :: nonConsoleEvents evs := rfl

@[simp] theorem nonConsoleEvents_cons_console (s : String) (evs : List Event) :
    nonConsoleEvents (Event.consoleOut s :: evs) = nonConsoleEvents evs := rfl

@[simp] theorem nonConsoleEvents_cons_callback (s : String) (evs : List Event) :
    nonConsoleEvents (Event.callbackMsg s :: evs) =
      Event.callbackMsg s :: nonConsoleEvents evs := rfl

@[simp] theorem nonConsoleEvents_cons_sleep (n : Int) (evs : List Event) :
    nonConsoleEvents (Event.sleep n :: evs) =
      Event.sleep n :: nonConsoleEvents evs := rfl

@[simp] theorem nonConsoleEvents_logEvents (m : String) :
    nonConsoleEvents (logEvents m q cb) =
      if cb then [Event.callbackMsg m] else [] := by
  cases q <;> cases cb <;> rfl

@[simp] theorem nonConsoleEvents_relayEvents (lines : List String) :
    nonConsoleEvents (relayEvents lines q) = [] := by
  cases q
  · rw [relayEvents, if_neg (by simp)]
    induction lines with
    | nil => rfl
    | cons x xs ih => simpa using ih
  · rfl

@[simp] theorem nonConsoleEvents_attemptBanner (i : Nat) (r : Int) :
    nonConsoleEvents (attemptBanner i r q cb) =
      if cb then
        [Event.callbackMsg
          ("尝试下载 (第 " ++ toString (i + 1) ++ "/" ++ toString (r + 1) ++ " 次)")]
      else [] := by
  rw [attemptBanner]; simp

@[simp] theorem nonConsoleEvents_delayEvents (i : Nat) (r d : Int) :
    nonConsoleEvents (delayEvents i r d q cb) =
      if (i : Int) < r then
        (if cb then [Event.callbackMsg ("将在 " ++ toString d ++ " 秒后重试...")]
         else []) ++ [Event.sleep d]
      else [] := by
  rw [delayEvents]; split <;> simp

@[simp] theorem callbackTrace_attemptBanner (i : Nat) (r : Int) :
    callbackTrace (attemptBanner i r q cb) =
      if cb then
        ["尝试下载 (第 " ++ toString (i + 1) ++ "/" ++ toString (r + 1) ++ " 次)"]
      else [] := by
  rw [attemptBanner]; simp

@[simp] theorem callbackTrace_delayEvents (i : Nat) (r d : Int) :
    callbackTrace (delayEvents i r d q cb) =
      if (i : Int) < r then
        (if cb then ["将在 " ++ toString d ++ " 秒后重试..."] else [])
      else [] := by
  rw [delayEvents]; split <;> simp

/-- Dropping the console events does not change the callback view. -/
theorem callbackTrace_nonConsoleEvents (evs : List Event) :
    callbackTrace (nonConsoleEvents evs) = callbackTrace evs := by
  induction evs with
  | nil => rfl
  | cons e rest ih => cases e <;> simpa using ih

@[simp] theorem countSpawns_delayEvents (i : Nat) (r d : Int) :
    countSpawns (delayEvents i r d q cb) = 0 := by
  rw [delayEvents]; split <;> simp

@[simp] theorem countSleeps_delayEvents (i : Nat) (r d : Int) :
    countSleeps (delayEvents i r d q cb) = if (i : Int) < r then 1 else 0 := by
  rw [delayEvents]; split <;> simp

@[simp] theorem filter_isSleep_delayEvents (i : Nat) (r d : Int) :
    (delayEvents i r d q cb).filter isSleep =
      if (i : Int) < r then [Event.sleep d] else [] := by
  rw [delayEvents]; split <;> simp

@[simp] theorem countSpawns_attemptBanner (i : Nat) (r : Int) :
    countSpawns (attemptBanner i r q cb) = 0 := by
  rw [attemptBanner]; simp

@[simp] theorem countSleeps_attemptBanner (i : Nat) (r : Int) :
    countSleeps (attemptBanner i r q cb) = 0 := by
  rw [attemptBanner]; simp

@[simp] theorem filter_isSleep_attemptBanner (i : Nat) (r : Int) :
    (attemptBanner i r q cb).filter isSleep = [] := by
  rw [attemptBanner]; simp

end TraceLemmas

section LoopLemmas

variable {cmd : List String} {out : String} {q cb : Bool} {r d : Int}
variable {ao : Nat → AttemptOutcome}

/-- The loop spawns at most one process per remaining attempt index. -/
theorem countSpawns_runAttempts_le (cmd : List String) (out : String)
    (q cb : Bool) (r d : Int) (ao : Nat → AttemptOutcome) (l : List Nat) :
    countSpawns (runAttempts cmd out q cb r d ao l).2 ≤ l.length := by
  induction l with
  | nil => simp [runAttempts]
  | cons i rest ih =>
    rw [runAttempts]
    cases ao i with
    | exit lines code =>
      by_cases hc : code = 0
      · simp [hc]
      · simp [hc]; omega
    | exc sp lines msg =>
      cases sp <;> simp <;> omega

/-- The loop spawns at most one process past the leading block of failing
attempts: once an attempt succeeds the loop returns. -/
theorem countSpawns_runAttempts_le_takeWhile (cmd : List String) (out : String)
    (q cb : Bool) (r d : Int) (ao : Nat → AttemptOutcome) (l : List Nat) :
    countSpawns (runAttempts cmd out q cb r d ao l).2 ≤
      (l.takeWhile (fun i => !isSuccess (ao i))).length + 1 := by
  induction l with
  | nil => simp [runAttempts]
  | cons i rest ih =>
    rw [runAttempts]
    cases hao : ao i with
    | exit lines code =>
      by_cases hc : code = 0
      · simp [hc]
      · have htw : List.takeWhile (fun j => !isSuccess (ao j)) (i :: rest) =
            i :: List.takeWhile (fun j => !isSuccess (ao j)) rest := by
          rw [List.takeWhile_cons]
          simp [hao, isSuccess, hc]
        rw [htw]
        simp [hc]
        omega
    | exc sp lines msg =>
      have htw : List.takeWhile (fun j => !isSuccess (ao j)) (i :: rest) =
          i :: List.takeWhile (fun j => !isSuccess (ao j)) rest := by
        rw [List.takeWhile_cons]
        simp [hao, isSuccess]
      rw [htw]
      cases sp <;> simp <;> omega

/-- The loop only consults the oracle at the indices it visits. -/
theorem runAttempts_congr {ao2 : Nat → AttemptOutcome} (l : List Nat)
    (h : ∀ i ∈ l, ao i = ao2 i) :
    runAttempts cmd out q cb r d ao l = runAttempts cmd out q cb r d ao2 l := by
  induction l with
  | nil => rfl
  | cons i rest ih =>
    have hi : ao i = ao2 i := h i (List.mem_cons_self i rest)
    have hrest := ih (fun j hj => h j (List.mem_cons_of_mem i hj))
    rw [runAttempts, runAttempts, ← hi, hrest]

/-- Once an attempt succeeds, the indices past it are irrelevant: the loop
returns at the first success. -/
theorem runAttempts_stop (l1 : List Nat) (k : Nat) (l2 l3 : List Nat)
    (h1 : ∀ i ∈ l1, isSuccess (ao i) = false)
    (hk : isSuccess (ao k) = true) :
    runAttempts cmd out q cb r d ao (l1 ++ k :: l2) =
      runAttempts cmd out q cb r d ao (l1 ++ k :: l3) := by
  induction l1 with
  | nil =>
    simp only [List.nil_append]
    rw [runAttempts, runAttempts]
    cases hao : ao k with
    | exit lines code =>
      rw [hao] at hk
      simp only [isSuccess] at hk
      simp [of_decide_eq_true hk]
    | exc sp lines msg => rw [hao] at hk; simp [isSuccess] at hk
  | cons i rest ih =>
    have hi : isSuccess (ao i) = false := h1 i (List.mem_cons_self i rest)
    have hrest := ih (fun j hj => h1 j (List.mem_cons_of_mem i hj))
    simp only [List.cons_append]
    rw [runAttempts, runAttempts]
    cases hao : ao i with
    | exit lines code =>
      rw [hao] at hi
      simp only [isSuccess] at hi
      simp [of_decide_eq_false hi, hrest]
    | exc sp lines msg => simp [hrest]

/-- After a leading block of failures, a successful attempt makes the loop
return `true`. -/
theorem runAttempts_success (l1 : List Nat) (k : Nat) (l2 : List Nat)
    (h1 : ∀ i ∈ l1, isSuccess (ao i) = false)
    (hk : isSuccess (ao k) = true) :
    (runAttempts cmd out q cb r d ao (l1 ++ k :: l2)).1 = true := by
  induction l1 with
  | nil =>
    simp only [List.nil_append]
    rw [runAttempts]
    cases hao : ao k with
    | exit lines code =>
      rw [hao] at hk
      simp only [isSuccess] at hk
      simp [of_decide_eq_true hk]
    | exc sp lines msg => rw [hao] at hk; simp [isSuccess] at hk
  | cons i rest ih =>
    have hi : isSuccess (ao i) = false := h1 i (List.mem_cons_self i rest)
    have hrest := ih (fun j hj => h1 j (List.mem_cons_of_mem i hj))
    simp only [List.cons_append]
    rw [runAttempts]
    cases hao : ao i with
    | exit lines code =>
      rw [hao] at hi
      simp only [isSuccess] at hi
      simp [of_decide_eq_false hi, hrest]
    | exc sp lines msg => simp [hrest]

/-- When every visited attempt fails, the loop returns `false` and sleeps
exactly once per visited index that is not the last attempt
(`attempt < retry`), with the configured duration. -/
theorem runAttempts_allfail (l : List Nat)
    (h : ∀ i ∈ l, isSuccess (ao i) = false) :
    (runAttempts cmd out q cb r d ao l).1 = false ∧
      (runAttempts cmd out q cb r d ao l).2.filter isSleep =
        List.replicate (l.countP (fun i : Nat => decide ((i : Int) < r)))
          (Event.sleep d) := by
  induction l with
  | nil => simp [runAttempts]
  | cons i rest ih =>
    have hi : isSuccess (ao i) = false := h i (List.mem_cons_self i rest)
    obtain ⟨ih1, ih2⟩ := ih (fun j hj => h j (List.mem_cons_of_mem i hj))
    rw [runAttempts]
    cases hao : ao i with
    | exit lines code =>
      rw [hao] at hi
      simp only [isSuccess] at hi
      have hc : ¬ code = 0 := of_decide_eq_false hi
      rw [List.countP_cons]
      by_cases hir : (i : Int) < r
      · simp [hc, ih1, ih2, hir, List.replicate_succ]
      · simp [hc, ih1, ih2, hir]
    | exc sp lines msg =>
      rw [List.countP_cons]
      by_cases hir : (i : Int) < r
      · cases sp <;> simp [ih1, ih2, hir, List.replicate_succ]
      · cases sp <;> simp [ih1, ih2, hir]

/-- The `quiet` flag affects neither the loop result nor any non-console
event: spawns, sleeps and callback deliveries are identical. -/
theorem runAttempts_quiet (q1 q2 : Bool) (l : List Nat) :
    (runAttempts cmd out q1 cb r d ao l).1 =
      (runAttempts cmd out q2 cb r d ao l).1 ∧
    nonConsoleEvents (runAttempts cmd out q1 cb r d ao l).2 =
      nonConsoleEvents (runAttempts cmd out q2 cb r d ao l).2 := by
  induction l with
  | nil => simp [runAttempts]
  | cons i rest ih =>
    obtain ⟨ih1, ih2⟩ := ih
    rw [runAttempts, runAttempts]
    cases hao : ao i with
    | exit lines code =>
      by_cases hc : code = 0
      · simp [hc]
      · simp [hc, ih1, ih2]
    | exc sp lines msg =>
      cases sp <;> simp [ih1, ih2]

/-- Two oracles that agree on which visited attempts succeed produce the
same loop result and the same sleep schedule. -/
theorem runAttempts_policy {ao2 : Nat → AttemptOutcome} (l : List Nat)
    (h : ∀ i ∈ l, isSuccess (ao i) = isSuccess (ao2 i)) :
    (runAttempts cmd out q cb r d ao l).1 =
      (runAttempts cmd out q cb r d ao2 l).1 ∧
    (runAttempts cmd out q cb r d ao l).2.filter isSleep =
      (runAttempts cmd out q cb r d ao2 l).2.filter isSleep := by
  induction l with
  | nil => exact ⟨rfl, rfl⟩
  | cons i rest ih =>
    have hi : isSuccess (ao i) = isSuccess (ao2 i) :=
      h i (List.mem_cons_self i rest)
    obtain ⟨ih1, ih2⟩ := ih (fun j hj => h j (List.mem_cons_of_mem i hj))
    rw [runAttempts, runAttempts]
    cases hao : ao i with
    | exit lines code =>
      cases hao2 : ao2 i with
      | exit lines2 code2 =>
        rw [hao, hao2] at hi
        simp only [isSuccess] at hi
        by_cases hc : code = 0
        · have hc2 : code2 = 0 := by
            rw [hc] at hi; exact of_decide_eq_true (by simpa using hi.symm)
          simp [hc, hc2]
        · have hc2 : ¬ code2 = 0 := by
            intro h0
            rw [h0] at hi
            exact hc (of_decide_eq_true (by simpa using hi))
          simp [hc, hc2, ih1, ih2]
      | exc sp2 lines2 msg2 =>
        rw [hao, hao2] at hi
        simp only [isSuccess] at hi
        have hc : ¬ code = 0 := of_decide_eq_false hi
        simp [hc, ih1, ih2]
    | exc sp lines msg =>
      cases hao2 : ao2 i with
      | exit lines2 code2 =>
        rw [hao, hao2] at hi
        simp only [isSuccess] at hi
        have hc2 : ¬ code2 = 0 := of_decide_eq_false hi.symm
        simp [hc2, ih1, ih2]
      | exc sp2 lines2 msg2 =>
        cases sp <;> cases sp2 <;> simp [ih1, ih2]

/-- Every spawn event the loop records carries exactly the command vector
it was given. -/
theorem spawn_not_mem_logEvents (c : List String) (m : String) :
    Event.spawn c ∉ logEvents m q cb := by
  cases q <;> cases cb <;> simp [logEvents]

theorem spawn_not_mem_relayEvents (c : List String) (lines : List String) :
    Event.spawn c ∉ relayEvents lines q := by
  cases q <;> simp [relayEvents]

theorem spawn_not_mem_attemptBanner (c : List String) (i : Nat) (r : Int) :
    Event.spawn c ∉ attemptBanner i r q cb := by
  rw [attemptBanner]; exact spawn_not_mem_logEvents c _

theorem spawn_not_mem_delayEvents (c : List String) (i : Nat) (r d : Int) :
    Event.spawn c ∉ delayEvents i r d q cb := by
  rw [delayEvents]
  split
  · simp [spawn_not_mem_logEvents c]
  · simp

theorem runAttempts_spawn_eq (l : List Nat) (c : List String)
    (h : Event.spawn c ∈ (runAttempts cmd out q cb r d ao l).2) : c = cmd := by
  induction l with
  | nil =>
    rw [runAttempts] at h
    exact absurd h (spawn_not_mem_logEvents c _)
  | cons i rest ih =>
    cases hao : ao i with
    | exit lines code =>
      rw [runAttempts, hao] at h
      by_cases hc : code = 0
      · simp [hc, spawn_not_mem_logEvents, spawn_not_mem_relayEvents,
          spawn_not_mem_attemptBanner] at h
        exact h
      · simp [hc, spawn_not_mem_logEvents, spawn_not_mem_relayEvents,
          spawn_not_mem_attemptBanner, spawn_not_mem_delayEvents] at h
        rcases h with h | h
        · exact h
        · exact ih h
    | exc sp lines msg =>
      rw [runAttempts, hao] at h
      cases sp
      · simp [spawn_not_mem_logEvents, spawn_not_mem_relayEvents,
          spawn_not_mem_attemptBanner, spawn_not_mem_delayEvents] at h
        exact ih h
      · simp [spawn_not_mem_logEvents, spawn_not_mem_relayEvents,
          spawn_not_mem_attemptBanner, spawn_not_mem_delayEvents] at h
        rcases h with h | h
        · exact h
        · exact ih h

/-- After a leading block of failures, an attempt that raises gets its
fault message delivered to the log callback. -/
theorem runAttempts_errmsg (l1 : List Nat) (k : Nat) (l2 : List Nat)
    {sp : Bool} {lines : List String} {msg : String}
    (h1 : ∀ i ∈ l1, isSuccess (ao i) = false)
    (hk : ao k = .exc sp lines msg) :
    ("下载过程中出错: " ++ msg) ∈
      callbackTrace (runAttempts cmd out q true r d ao (l1 ++ k :: l2)).2 := by
  induction l1 with
  | nil =>
    simp only [List.nil_append]
    rw [runAttempts, hk]
    cases sp <;> simp
  | cons i rest ih =>
    have hi : isSuccess (ao i) = false := h1 i (List.mem_cons_self i rest)
    have hrest := ih (fun j hj => h1 j (List.mem_cons_of_mem i hj))
    simp only [List.cons_append]
    rw [runAttempts]
    cases hao : ao i with
    | exit lines2 code =>
      rw [hao] at hi
      simp only [isSuccess] at hi
      have hc : ¬ code = 0 := of_decide_eq_false hi
      simp only [if_neg hc]
      simp [hrest]
    | exc sp2 lines2 msg2 =>
      cases sp2 <;> simp [hrest]

end LoopLemmas

section ListUtil

/-- `range (N+1)` splits at any `k ≤ N` into `range k`, `k`, and a tail. -/
theorem range_split (k N : Nat) (h : k ≤ N) :
    ∃ t, List.range (N + 1) = List.range k ++ k :: t := by
  induction N with
  | zero =>
    have hk : k = 0 := Nat.le_zero.mp h
    subst hk
    exact ⟨[], rfl⟩
  | succ m ihm =>
    by_cases hk : k ≤ m
    · obtain ⟨t, ht⟩ := ihm hk
      refine ⟨t ++ [m + 1], ?_⟩
      rw [List.range_succ, ht]
      simp
    · have hk2 : k = m + 1 := by omega
      subst hk2
      refine ⟨[], ?_⟩
      rw [List.range_succ]

/-- If the element at position `k` fails the predicate, the `takeWhile`
prefix has length at most `k`. -/
theorem length_takeWhile_le {α : Type} (l : List α) (p : α → Bool) (k : Nat)
    (h : k < l.length) (hp : p (l.get ⟨k, h⟩) = false) :
    (l.takeWhile p).length ≤ k := by
  induction l generalizing k with
  | nil => simp at h
  | cons x xs ih =>
    cases k with
    | zero =>
      have hx : p x = false := hp
      simp [List.takeWhile_cons, hx]
    | succ m =>
      by_cases hx : p x = true
      · have hm : m < xs.length := Nat.lt_of_succ_lt_succ h
        have hpm : p (xs.get ⟨m, hm⟩) = false := hp
        have := ih m hm hpm
        simp [List.takeWhile_cons, hx]
        omega
      · simp [List.takeWhile_cons, Bool.eq_false_iff.mpr hx]

/-- Exactly `N` of the attempt indices `0 .. N` satisfy `attempt < retry`
when `retry = N`. -/
theorem countP_range_cast (N : Nat) :
    (List.range (N + 1)).countP (fun i : Nat => decide ((i : Int) < (N : Int))) = N := by
  rw [List.range_succ, List.countP_append]
  have h1 : (List.range N).countP (fun i : Nat => decide ((i : Int) < (N : Int))) =
      (List.range N).length := by
    rw [List.countP_eq_length]
    intro a ha
    have : a < N := List.mem_range.mp ha
    simpa using (Int.ofNat_lt.mpr this)
  have h2 : List.countP (fun i : Nat => decide ((i : Int) < (N : Int))) [N] = 0 := by
    simp
  rw [h1, h2, List.length_range]
  omega

end ListUtil

section HeaderLemmas

@[simp] theorem dictMerge_nil (d : List (String × String)) :
    dictMerge d [] = d := rfl

@[simp] theorem dictMerge_cons (d : List (String × String))
    (p : String × String) (o : List (String × String)) :
    dictMerge d (p :: o) = dictMerge (dictInsert d p.1 p.2) o := rfl

theorem dlookup_append (d e : List (String × String)) (key : String) :
    dlookup (d ++ e) key = (dlookup d key).orElse (fun _ => dlookup e key) := by
  induction d with
  | nil => rfl
  | cons p rest ih =>
    obtain ⟨a, b⟩ := p
    by_cases ha : a = key
    · simp [dlookup, ha, Option.orElse]
    · simp [dlookup, ha, ih]

theorem dlookup_map_self (d : List (String × String)) (k v : String)
    (hany : d.any (fun p => decide (p.1 = k)) = true) :
    dlookup (d.map (fun p => if p.1 = k then (k, v) else p)) k = some v := by
  induction d with
  | nil => simp at hany
  | cons p rest ih =>
    obtain ⟨a, b⟩ := p
    simp only [List.map_cons]
    by_cases ha : a = k
    · rw [if_pos ha]
      simp [dlookup]
    · rw [if_neg ha]
      have hd : decide ((a, b).1 = k) = false := by simp [ha]
      simp only [List.any_cons, hd, Bool.false_or] at hany
      simp only [dlookup]
      rw [if_neg ha]
      exact ih hany

theorem dlookup_map_ne (d : List (String × String)) (k v key : String)
    (hne : key ≠ k) :
    dlookup (d.map (fun p => if p.1 = k then (k, v) else p)) key =
      dlookup d key := by
  induction d with
  | nil => rfl
  | cons p rest ih =>
    obtain ⟨a, b⟩ := p
    simp only [List.map_cons]
    by_cases ha : a = k
    · rw [if_pos ha]
      have hk : ¬ k = key := fun hh => hne hh.symm
      have hak : ¬ a = key := fun hh => hne (ha ▸ hh).symm
      simp only [dlookup]
      rw [if_neg hk, if_neg hak]
      exact ih
    · rw [if_neg ha]
      by_cases hak : a = key
      · simp only [dlookup]
        rw [if_pos hak, if_pos hak]
      · simp only [dlookup]
        rw [if_neg hak, if_neg hak]
        exact ih

theorem dlookup_of_any_false (d : List (String × String)) (k : String)
    (h : d.any (fun p => decide (p.1 = k)) = false) :
    dlookup d k = none := by
  induction d with
  | nil => rfl
  | cons p rest ih =>
    obtain ⟨a, b⟩ := p
    simp only [List.any_cons, Bool.or_eq_false_iff] at h
    have ha : ¬ a = k := by simpa using h.1
    simp [dlookup, ha]
    exact ih h.2

theorem dlookup_dictInsert_self (d : List (String × String)) (k v : String) :
    dlookup (dictInsert d k v) k = some v := by
  rw [dictInsert]
  split
  · exact dlookup_map_self d k v (by assumption)
  · rename_i hany
    have hfalse : d.any (fun p => decide (p.1 = k)) = false := by
      cases h2 : d.any (fun p => decide (p.1 = k))
      · rfl
      · exact absurd h2 hany
    rw [dlookup_append, dlookup_of_any_false d k hfalse]
    simp [dlookup, Option.orElse]

theorem dlookup_dictInsert_ne (d : List (String × String)) (k v key : String)
    (hne : key ≠ k) :
    dlookup (dictInsert d k v) key = dlookup d key := by
  rw [dictInsert]
  split
  · exact dlookup_map_ne d k v key hne
  · rw [dlookup_append]
    cases hd : dlookup d key
    · have hk : ¬ k = key := fun hh => hne hh.symm
      simp [Option.orElse, dlookup, hk]
    · simp [Option.orElse]

theorem dlookup_of_not_mem_keys (o : List (String × String)) (key : String)
    (h : key ∉ o.map Prod.fst) : dlookup o key = none := by
  induction o with
  | nil => rfl
  | cons p rest ih =>
    obtain ⟨a, b⟩ := p
    simp only [List.map_cons, List.mem_cons] at h
    push_neg at h
    have ha : ¬ a = key := fun hh => h.1 hh.symm
    simp [dlookup, ha]
    exact ih h.2

/-- Lookup characterization of the Python dict merge: for override lists
with distinct keys (as any Python dict has), the caller's entry wins on any
key it supplies, and defaults survive untouched elsewhere. -/
theorem dlookup_dictMerge (d o : List (String × String))
    (hnd : (o.map Prod.fst).Nodup) (key : String) :
    dlookup (dictMerge d o) key =
      (dlookup o key).orElse (fun _ => dlookup d key) := by
  induction o generalizing d with
  | nil => rfl
  | cons p rest ih =>
    obtain ⟨a, b⟩ := p
    simp only [List.map_cons, List.nodup_cons] at hnd
    rw [dictMerge_cons, ih (dictInsert d a b) hnd.2]
    by_cases hk : key = a
    · subst hk
      rw [dlookup_of_not_mem_keys rest key hnd.1, dlookup_dictInsert_self]
      simp [dlookup, Option.orElse]
    · rw [dlookup_dictInsert_ne d a b key hk]
      have ha : ¬ a = key := fun hh => hk hh.symm
      simp [dlookup, ha]

end HeaderLemmas

section PathLemmas

theorem py_lower_append (s t : String) :
    py_lower (s ++ t) = py_lower s ++ py_lower t := by
  simp [py_lower, String.data_append]
  rfl

theorem py_lower_mp4 : py_lower ".mp4" = ".mp4" := by decide

theorem py_endswith_append (x suf : String) :
    py_endswith (x ++ suf) suf = true := by
  rw [py_endswith]
  exact decide_eq_true (by rw [String.data_append]; exact List.suffix_append _ _)

/-- Appending `.mp4` always produces a name whose lowercase form ends in
`.mp4`. -/
theorem py_endswith_lower_append_mp4 (x : String) :
    py_endswith (py_lower (x ++ ".mp4")) ".mp4" = true := by
  rw [py_lower_append, py_lower_mp4]
  exact py_endswith_append _ _

/-- The `.mp4`-enforcement step (lines 41–43) in isolation. -/
theorem ensure_mp4 (f : String) :
    py_endswith
      (py_lower (if py_endswith (py_lower f) ".mp4" then f else f ++ ".mp4"))
      ".mp4" = true := by
  split
  · assumption
  · exact py_endswith_lower_append_mp4 f

theorem resolveOutput_none (now : Nat) :
    resolveOutput none now = "output_" ++ toString now ++ ".mp4" := by
  rw [resolveOutput.eq_def]
  exact if_pos (py_endswith_lower_append_mp4 ("output_" ++ toString now))

theorem resolveOutput_some_with_suffix (s : String) (now : Nat)
    (hs : s ≠ "") (h : py_endswith (py_lower s) ".mp4" = true) :
    resolveOutput (some s) now = s := by
  rw [resolveOutput.eq_def]
  simp only [if_neg hs]
  exact if_pos h

theorem resolveOutput_some_without_suffix (s : String) (now : Nat)
    (hs : s ≠ "") (h : py_endswith (py_lower s) ".mp4" = false) :
    resolveOutput (some s) now = s ++ ".mp4" := by
  rw [resolveOutput.eq_def]
  simp only [if_neg hs]
  exact if_neg (by simp [h])

theorem resolveOutput_endswith (of : Option String) (now : Nat) :
    py_endswith (py_lower (resolveOutput of now)) ".mp4" = true := by
  rw [resolveOutput.eq_def]
  exact ensure_mp4 _

end PathLemmas

section DownloadLemmas

/-- When the resolved output path exists, `download_m3u8` only logs the
collision and returns `false`. -/
theorem download_m3u8_exists (env : Env) (url : String) (of : Option String)
    (hs : Option (List (String × String))) (fp : String) (tm : Int)
    (q cb : Bool) (r d : Int)
    (h : env.fileExists (resolveOutput of env.now) = true) :
    download_m3u8 env url of hs fp tm q cb r d =
      (false, logEvents ("文件已存在: " ++ resolveOutput of env.now) q cb) := by
  simp [download_m3u8, h]

/-- When the resolved output path is fresh, `download_m3u8` is the start
log followed by the retry loop over attempts `0 .. retry`. -/
theorem download_m3u8_run (env : Env) (url : String) (of : Option String)
    (hs : Option (List (String × String))) (fp : String) (tm : Int)
    (q cb : Bool) (r d : Int)
    (h : env.fileExists (resolveOutput of env.now) = false) :
    download_m3u8 env url of hs fp tm q cb r d =
      ((runAttempts
          (buildCmd fp (buildHeadersStr (dictMerge default_headers (hs.getD [])))
            url tm (resolveOutput of env.now))
          (resolveOutput of env.now) q cb r d env.attempt
          (List.range (r + 1).toNat)).1,
        logEvents ("开始下载: " ++ url) q cb ++
          (runAttempts
            (buildCmd fp (buildHeadersStr (dictMerge default_headers (hs.getD [])))
              url tm (resolveOutput of env.now))
            (resolveOutput of env.now) q cb r d env.attempt
            (List.range (r + 1).toNat)).2) := by
  simp [download_m3u8, h]

/-- Projection of `download_m3u8_run` to the result. -/
theorem download_m3u8_run_fst (env : Env) (url : String) (of : Option String)
    (hs : Option (List (String × String))) (fp : String) (tm : Int)
    (q cb : Bool) (r d : Int)
    (h : env.fileExists (resolveOutput of env.now) = false) :
    (download_m3u8 env url of hs fp tm q cb r d).1 =
      (runAttempts
        (buildCmd fp (buildHeadersStr (dictMerge default_headers (hs.getD [])))
          url tm (resolveOutput of env.now))
        (resolveOutput of env.now) q cb r d env.attempt
        (List.range (r + 1).toNat)).1 := by
  rw [download_m3u8_run env url of hs fp tm q cb r d h]

/-- Projection of `download_m3u8_run` to the trace. -/
theorem download_m3u8_run_snd (env : Env) (url : String) (of : Option String)
    (hs : Option (List (String × String))) (fp : String) (tm : Int)
    (q cb : Bool) (r d : Int)
    (h : env.fileExists (resolveOutput of env.now) = false) :
    (download_m3u8 env url of hs fp tm q cb r d).2 =
      logEvents ("开始下载: " ++ url) q cb ++
        (runAttempts
          (buildCmd fp (buildHeadersStr (dictMerge default_headers (hs.getD [])))
            url tm (resolveOutput of env.now))
          (resolveOutput of env.now) q cb r d env.attempt
          (List.range (r + 1).toNat)).2 := by
  rw [download_m3u8_run env url of hs fp tm q cb r d h]

end DownloadLemmas

/-- C4: when the resolved output path names an existing file,
`download_m3u8` returns `false` without spawning any process and without
sleeping — the precondition failure is never retried (in this model the
output file can only be touched by a spawned process, so zero spawns also
means the existing file is untouched). -/
theorem C4_existing_file_rejected (env : Env) (url : String)
    (of : Option String) (hs : Option (List (String × String))) (fp : String)
    (tm : Int) (q cb : Bool) (r d : Int)
    (hex : env.fileExists (resolveOutput of env.now) = true) :
    (download_m3u8 env url of hs fp tm q cb r d).1 = false ∧
    countSpawns (download_m3u8 env url of hs fp tm q cb r d).2 = 0 ∧
    countSleeps (download_m3u8 env url of hs fp tm q cb r d).2 = 0 := by
  rw [download_m3u8_exists env url of hs fp tm q cb r d hex]
  refine ⟨rfl, ?_, ?_⟩ <;> simp

/-- C4 witness: a concrete world where the output path exists. -/
theorem C4_witness :
    (download_m3u8 envExists "u" (some "o") none "ffmpeg" 600 true true 3 5).1 = false ∧
    countSpawns (download_m3u8 envExists "u" (some "o") none "ffmpeg" 600 true true 3 5).2 = 0 ∧
    countSleeps (download_m3u8 envExists "u" (some "o") none "ffmpeg" 600 true true 3 5).2 = 0 :=
  C4_existing_file_rejected envExists "u" (some "o") none "ffmpeg" 600 true true 3 5 rfl

/-- C10: a negative `retry` makes `range(retry+1)` empty, so the loop body
never runs: no spawn, no sleep, the max-retries message is logged, and the
result is `false` — no exception is raised. -/
theorem C10_negative_retry (env : Env) (url : String) (of : Option String)
    (hs : Option (List (String × String))) (fp : String) (tm : Int)
    (q : Bool) (r d : Int) (hr : r < 0)
    (hex : env.fileExists (resolveOutput of env.now) = false) :
    (download_m3u8 env url of hs fp tm q true r d).1 = false ∧
    countSpawns (download_m3u8 env url of hs fp tm q true r d).2 = 0 ∧
    countSleeps (download_m3u8 env url of hs fp tm q true r d).2 = 0 ∧
    callbackTrace (download_m3u8 env url of hs fp tm q true r d).2 =
      ["开始下载: " ++ url, "达到最大重试次数，下载失败"] := by
  rw [download_m3u8_run env url of hs fp tm q true r d hex]
  have h0 : (r + 1).toNat = 0 := by omega
  rw [h0]
  simp [runAttempts]

/-- C10 witness: a concrete run with `retry = -1`. -/
theorem C10_witness :
    (download_m3u8 envAllFail "u" (some "o") none "ffmpeg" 600 true true (-1) 5).1 = false ∧
    countSpawns (download_m3u8 envAllFail "u" (some "o") none "ffmpeg" 600 true true (-1) 5).2 = 0 ∧
    countSleeps (download_m3u8 envAllFail "u" (some "o") none "ffmpeg" 600 true true (-1) 5).2 = 0 ∧
    callbackTrace (download_m3u8 envAllFail "u" (some "o") none "ffmpeg" 600 true true (-1) 5).2 =
      ["开始下载: " ++ "u", "达到最大重试次数，下载失败"] :=
  C10_negative_retry envAllFail "u" (some "o") none "ffmpeg" 600 true (-1) 5
    (by decide) rfl

/-- C9: the `quiet` flag changes neither the returned boolean nor the
sequence of messages the log callback receives, nor any spawn or sleep:
it suppresses only console output. -/
theorem C9_quiet_noninterference (env : Env) (url : String)
    (of : Option String) (hs : Option (List (String × String))) (fp : String)
    (tm : Int) (cb : Bool) (r d : Int) (q1 q2 : Bool) :
    (download_m3u8 env url of hs fp tm q1 cb r d).1 =
      (download_m3u8 env url of hs fp tm q2 cb r d).1 ∧
    callbackTrace (download_m3u8 env url of hs fp tm q1 cb r d).2 =
      callbackTrace (download_m3u8 env url of hs fp tm q2 cb r d).2 ∧
    nonConsoleEvents (download_m3u8 env url of hs fp tm q1 cb r d).2 =
      nonConsoleEvents (download_m3u8 env url of hs fp tm q2 cb r d).2 := by
  cases hex : env.fileExists (resolveOutput of env.now)
  · rw [download_m3u8_run env url of hs fp tm q1 cb r d hex,
      download_m3u8_run env url of hs fp tm q2 cb r d hex]
    obtain ⟨h1, h2⟩ := @runAttempts_quiet
      (buildCmd fp (buildHeadersStr (dictMerge default_headers (hs.getD [])))
        url tm (resolveOutput of env.now))
      (resolveOutput of env.now) cb r d env.attempt q1 q2
      (List.range (r + 1).toNat)
    refine ⟨h1, ?_, ?_⟩
    · have h3 := congrArg callbackTrace h2
      rw [callbackTrace_nonConsoleEvents, callbackTrace_nonConsoleEvents] at h3
      simp [h3]
    · simp [h2]
  · rw [download_m3u8_exists env url of hs fp tm q1 cb r d hex,
      download_m3u8_exists env url of hs fp tm q2 cb r d hex]
    refine ⟨rfl, ?_, ?_⟩ <;> cases cb <;> simp

/-- C1: with `retry = N` the external tool is spawned at most `N + 1`
times, and whenever some attempt `k` returns exit code 0 the spawn count is
at most `k + 1` — a further spawn happens only while every earlier attempt
failed (non-zero exit or exception). -/
theorem C1_spawn_bound (env : Env) (url : String) (of : Option String)
    (hs : Option (List (String × String))) (fp : String) (tm : Int)
    (q cb : Bool) (N : Nat) (d : Int) :
    countSpawns (download_m3u8 env url of hs fp tm q cb (N : Int) d).2 ≤ N + 1 ∧
    (∀ k : Nat, isSuccess (env.attempt k) = true →
      countSpawns (download_m3u8 env url of hs fp tm q cb (N : Int) d).2 ≤ k + 1) := by
  have hto : ((N : Int) + 1).toNat = N + 1 := by omega
  cases hex : env.fileExists (resolveOutput of env.now)
  · rw [download_m3u8_run env url of hs fp tm q cb (N : Int) d hex, hto]
    set O := resolveOutput of env.now with hO
    set C := buildCmd fp (buildHeadersStr (dictMerge default_headers (hs.getD []))) url tm O
      with hC
    constructor
    · have h := countSpawns_runAttempts_le C O q cb (N : Int) d env.attempt
        (List.range (N + 1))
      simp only [List.length_range] at h
      simpa using h
    · intro k hk
      by_cases hkN : k ≤ N
      · have h := countSpawns_runAttempts_le_takeWhile C O q cb (N : Int) d env.attempt
          (List.range (N + 1))
        have hklen : k < (List.range (N + 1)).length := by
          simp only [List.length_range]; omega
        have hget : (fun i => !isSuccess (env.attempt i))
            ((List.range (N + 1)).get ⟨k, hklen⟩) = false := by
          simp [List.get_eq_getElem, List.getElem_range, hk]
        have hbound := length_takeWhile_le (List.range (N + 1))
          (fun i => !isSuccess (env.attempt i)) k hklen hget
        simp only [countSpawns_append, countSpawns_logEvents, Nat.zero_add]
        omega
      · have h := countSpawns_runAttempts_le C O q cb (N : Int) d env.attempt
          (List.range (N + 1))
        simp only [List.length_range] at h
        simp only [countSpawns_append, countSpawns_logEvents, Nat.zero_add]
        omega
  · rw [download_m3u8_exists env url of hs fp tm q cb (N : Int) d hex]
    refine ⟨?_, fun k _ => ?_⟩ <;> simp

/-- C1 witness: with the always-succeeding world, the success of attempt 0
bounds the spawn count by 1. -/
theorem C1_witness :
    countSpawns (download_m3u8 envSucceed "u" (some "o") none "ffmpeg" 600
      true true ((3 : Nat) : Int) 5).2 ≤ 0 + 1 :=
  (C1_spawn_bound envSucceed "u" (some "o") none "ffmpeg" 600 true true 3 5).2
    0 (by decide)

/-- C2: if attempt `k ≤ N` exits 0 and every earlier attempt failed,
`download_m3u8` returns `true`, and the whole run (result and trace) is
unchanged under any replacement of the oracle beyond attempt `k` — attempt
`k + 1` never happens. -/
theorem C2_success_stops (env : Env) (url : String) (of : Option String)
    (hs : Option (List (String × String))) (fp : String) (tm : Int)
    (q cb : Bool) (N k : Nat) (d : Int)
    (hkN : k ≤ N)
    (hk : isSuccess (env.attempt k) = true)
    (hprev : ∀ j : Nat, j < k → isSuccess (env.attempt j) = false)
    (hex : env.fileExists (resolveOutput of env.now) = false) :
    (download_m3u8 env url of hs fp tm q cb (N : Int) d).1 = true ∧
    (∀ env2 : Env, env2.fileExists = env.fileExists → env2.now = env.now →
      (∀ j : Nat, j ≤ k → env2.attempt j = env.attempt j) →
      download_m3u8 env2 url of hs fp tm q cb (N : Int) d =
        download_m3u8 env url of hs fp tm q cb (N : Int) d) := by
  have hto : ((N : Int) + 1).toNat = N + 1 := by omega
  obtain ⟨t, ht⟩ := range_split k N hkN
  have hpre : ∀ i ∈ List.range k, isSuccess (env.attempt i) = false :=
    fun i hi => hprev i (List.mem_range.mp hi)
  constructor
  · rw [download_m3u8_run env url of hs fp tm q cb (N : Int) d hex, hto, ht]
    exact runAttempts_success (List.range k) k t hpre hk
  · intro env2 hfe hnow hagree
    have hex2 : env2.fileExists (resolveOutput of env2.now) = false := by
      rw [hfe, hnow]; exact hex
    rw [download_m3u8_run env2 url of hs fp tm q cb (N : Int) d hex2,
      download_m3u8_run env url of hs fp tm q cb (N : Int) d hex, hnow, hto, ht]
    set O := resolveOutput of env.now with hO
    set C := buildCmd fp (buildHeadersStr (dictMerge default_headers (hs.getD []))) url tm O
      with hC
    have hpre2 : ∀ i ∈ List.range k, isSuccess (env2.attempt i) = false := by
      intro i hi
      rw [hagree i (le_of_lt (List.mem_range.mp hi))]
      exact hpre i hi
    have hk2 : isSuccess (env2.attempt k) = true := by
      rw [hagree k le_rfl]; exact hk
    have h1 := @runAttempts_stop C O q cb (N : Int) d env2.attempt
      (List.range k) k t [] hpre2 hk2
    have h2 := @runAttempts_stop C O q cb (N : Int) d env.attempt
      (List.range k) k t [] hpre hk
    have h3 : runAttempts C O q cb (N : Int) d env2.attempt (List.range k ++ k :: []) =
        runAttempts C O q cb (N : Int) d env.attempt (List.range k ++ k :: []) := by
      apply runAttempts_congr
      intro i hi
      rcases List.mem_append.mp hi with hi | hi
      · exact hagree i (le_of_lt (List.mem_range.mp hi))
      · have : i = k := by simpa using hi
        subst this
        exact hagree i le_rfl
    have hrun : runAttempts C O q cb (N : Int) d env2.attempt (List.range k ++ k :: t) =
        runAttempts C O q cb (N : Int) d env.attempt (List.range k ++ k :: t) :=
      h1.trans (h3.trans h2.symm)
    rw [hrun]

/-- C2 witness: attempt 0 exits 0 at `retry = 1`, so the run returns true. -/
theorem C2_witness :
    (download_m3u8 envSucceed "u" (some "o") none "ffmpeg" 600 true true
      ((1 : Nat) : Int) 5).1 = true :=
  (C2_success_stops envSucceed "u" (some "o") none "ffmpeg" 600 true true 1 0 5
    (by decide) (by decide) (fun j hj => absurd hj (Nat.not_lt_zero j)) rfl).1

/-- C3: if every attempt `0 .. N` fails, `download_m3u8` returns `false`
and the trace holds exactly `N` sleeps of `retry_delay` seconds — one after
each failed attempt except the last. -/
theorem C3_exhaustion (env : Env) (url : String) (of : Option String)
    (hs : Option (List (String × String))) (fp : String) (tm : Int)
    (q cb : Bool) (N : Nat) (d : Int)
    (hall : ∀ k : Nat, k ≤ N → isSuccess (env.attempt k) = false)
    (hex : env.fileExists (resolveOutput of env.now) = false) :
    (download_m3u8 env url of hs fp tm q cb (N : Int) d).1 = false ∧
    (download_m3u8 env url of hs fp tm q cb (N : Int) d).2.filter isSleep =
      List.replicate N (Event.sleep d) := by
  have hto : ((N : Int) + 1).toNat = N + 1 := by omega
  rw [download_m3u8_run env url of hs fp tm q cb (N : Int) d hex, hto]
  obtain ⟨h1, h2⟩ := runAttempts_allfail (List.range (N + 1))
    (fun i hi => hall i (by have := List.mem_range.mp hi; omega))
  refine ⟨h1, ?_⟩
  rw [List.filter_append, filter_isSleep_logEvents, h2, countP_range_cast]
  rfl

/-- C3 witness: three attempts, all exiting 1, yield false and two sleeps. -/
theorem C3_witness :
    (download_m3u8 envAllFail "u" (some "o") none "ffmpeg" 600 true true
      ((2 : Nat) : Int) 5).1 = false ∧
    (download_m3u8 envAllFail "u" (some "o") none "ffmpeg" 600 true true
      ((2 : Nat) : Int) 5).2.filter isSleep =
      List.replicate 2 (Event.sleep 5) :=
  C3_exhaustion envAllFail "u" (some "o") none "ffmpeg" 600 true true 2 5
    (fun _ _ => rfl) rfl

/-- C5: the header set used is the fixed defaults overlaid key-by-key by
the caller's entries (caller wins on shared keys, defaults survive
elsewhere); the merge is idempotent; and the concrete example
`\x7bA:1,B:2\x7d` overlaid with `\x7bB:3,C:4\x7d` gives exactly
`\x7bA:1,B:3,C:4\x7d`. -/
theorem C5_header_merge (o : List (String × String))
    (hnd : (o.map Prod.fst).Nodup) :
    (∀ key : String, dlookup (dictMerge default_headers o) key =
      (dlookup o key).orElse (fun _ => dlookup default_headers key)) ∧
    (∀ key : String, dlookup (dictMerge (dictMerge default_headers o) o) key =
      dlookup (dictMerge default_headers o) key) ∧
    dictMerge [("A", "1"), ("B", "2")] [("B", "3"), ("C", "4")] =
      [("A", "1"), ("B", "3"), ("C", "4")] := by
  refine ⟨fun key => dlookup_dictMerge default_headers o hnd key,
    fun key => ?_, by decide⟩
  rw [dlookup_dictMerge _ o hnd key, dlookup_dictMerge _ o hnd key]
  cases dlookup o key <;> simp [Option.orElse]

/-- C5 witness: the override `\x7bB:3,C:4\x7d` wins on `B` over the
defaults, and the concrete merge is as claimed. -/
theorem C5_witness :
    dlookup (dictMerge default_headers [("B", "3"), ("C", "4")]) "B" = some "3" ∧
    dictMerge [("A", "1"), ("B", "2")] [("B", "3"), ("C", "4")] =
      [("A", "1"), ("B", "3"), ("C", "4")] :=
  ⟨(C5_header_merge [("B", "3"), ("C", "4")] (by decide)).1 "B",
   (C5_header_merge [("B", "3"), ("C", "4")] (by decide)).2.2⟩

/-- C6: the resolved output path always ends in `.mp4` case-insensitively:
an absent name becomes `output_<timestamp>.mp4`, a supplied name without
the (case-insensitive) suffix gets `.mp4` appended, and a name already
carrying the suffix in any case is kept unchanged. -/
theorem C6_output_path (of : Option String) (now : Nat) :
    py_endswith (py_lower (resolveOutput of now)) ".mp4" = true ∧
    resolveOutput none now = "output_" ++ toString now ++ ".mp4" ∧
    (∀ s : String, s ≠ "" → py_endswith (py_lower s) ".mp4" = false →
      resolveOutput (some s) now = s ++ ".mp4") ∧
    (∀ s : String, s ≠ "" → py_endswith (py_lower s) ".mp4" = true →
      resolveOutput (some s) now = s) ∧
    resolveOutput (some "clip") now = "clip.mp4" ∧
    resolveOutput (some "clip.MP4") now = "clip.MP4" :=
  ⟨resolveOutput_endswith of now, resolveOutput_none now,
   fun s hs h => resolveOutput_some_without_suffix s now hs h,
   fun s hs h => resolveOutput_some_with_suffix s now hs h,
   resolveOutput_some_without_suffix "clip" now (by decide) (by decide),
   resolveOutput_some_with_suffix "clip.MP4" now (by decide) (by decide)⟩

/-- C6 witness: concrete instances of the three resolution cases. -/
theorem C6_witness :
    resolveOutput (some "video") 0 = "video" ++ ".mp4" ∧
    py_endswith (py_lower (resolveOutput none 5)) ".mp4" = true :=
  ⟨(C6_output_path (some "video") 0).2.2.1 "video" (by decide) (by decide),
   (C6_output_path none 5).1⟩

set_option maxRecDepth 8000 in
/-- C7 counterexample: the claim that the `-headers` argument is the
CRLF-joined (separator-only) serialization fails — the run with the default
headers spawns a vector whose header block carries a trailing CRLF, so it
differs from the vector built with the CRLF-joined block
`headersBlockSpec`. -/
theorem C7_counterexample :
    Event.spawn (buildCmd "ffmpeg" (buildHeadersStr default_headers) "u" 600 "o.mp4") ∈
      (download_m3u8 envAllFail "u" (some "o") none "ffmpeg" 600 true true 0 5).2 ∧
    buildCmd "ffmpeg" (buildHeadersStr default_headers) "u" 600 "o.mp4" ≠
      buildCmd "ffmpeg" (headersBlockSpec default_headers) "u" 600 "o.mp4" := by
  constructor
  · decide
  · decide

/-- C7 (amended): every spawn in any run passes exactly
`[tool, -headers, block, -i, url, -c, copy, -bsf:a, aac_adtstoasc,
-timeout, str(timeout), output_path]` where `block` is the concatenation of
`"Key: Value\r\n"` for each merged header — CRLF-terminated pairs, with a
trailing CRLF. -/
theorem C7_argument_vector (env : Env) (url : String) (of : Option String)
    (hs : Option (List (String × String))) (fp : String) (tm : Int)
    (q cb : Bool) (r d : Int) (c : List String)
    (h : Event.spawn c ∈ (download_m3u8 env url of hs fp tm q cb r d).2) :
    c = [fp, "-headers",
      String.join ((dictMerge default_headers (hs.getD [])).map
        (fun kv => kv.1 ++ ": " ++ kv.2 ++ "\r\n")),
      "-i", url, "-c", "copy", "-bsf:a", "aac_adtstoasc", "-timeout",
      toString tm, resolveOutput of env.now] := by
  cases hex : env.fileExists (resolveOutput of env.now)
  · rw [download_m3u8_run_snd env url of hs fp tm q cb r d hex] at h
    rcases List.mem_append.mp h with h3 | h3
    · exact absurd h3 (spawn_not_mem_logEvents c _)
    · have hc := runAttempts_spawn_eq _ c h3
      rw [hc]
      rfl
  · rw [download_m3u8_exists env url of hs fp tm q cb r d hex] at h
    have h2 : Event.spawn c ∈
        logEvents ("文件已存在: " ++ resolveOutput of env.now) q cb := h
    exact absurd h2 (spawn_not_mem_logEvents c _)

set_option maxRecDepth 8000 in
/-- C7 witness: the spawned vector of a concrete failing run. -/
theorem C7_witness :
    buildCmd "ffmpeg" (buildHeadersStr default_headers) "u" 600 "o.mp4" =
      ["ffmpeg", "-headers",
        String.join ((dictMerge default_headers
          ((none : Option (List (String × String))).getD [])).map
          (fun kv => kv.1 ++ ": " ++ kv.2 ++ "\r\n")),
        "-i", "u", "-c", "copy", "-bsf:a", "aac_adtstoasc", "-timeout",
        toString (600 : Int), resolveOutput (some "o") envAllFail.now] :=
  C7_argument_vector envAllFail "u" (some "o") none "ffmpeg" 600 true true 0 5
    (buildCmd "ffmpeg" (buildHeadersStr default_headers) "u" 600 "o.mp4")
    (by decide)

/-- C8: an attempt that raises is handled exactly like a non-zero exit for
retry purposes — replacing the raising attempt `k` by any non-zero exit
changes neither the returned boolean nor the sleep schedule — the fault
message is logged to the callback, and no exception escapes (the result
stays a boolean). -/
theorem C8_exception_retry_policy (env : Env) (url : String)
    (of : Option String) (hs : Option (List (String × String))) (fp : String)
    (tm : Int) (q cb : Bool) (N k : Nat) (d : Int)
    (sp : Bool) (lines : List String) (msg : String)
    (hkN : k ≤ N)
    (hk : env.attempt k = AttemptOutcome.exc sp lines msg)
    (hprev : ∀ j : Nat, j < k → isSuccess (env.attempt j) = false)
    (hex : env.fileExists (resolveOutput of env.now) = false) :
    (∀ env2 : Env, env2.fileExists = env.fileExists → env2.now = env.now →
      (∀ j : Nat, j ≠ k → env2.attempt j = env.attempt j) →
      ∀ (lines2 : List String) (c : Int), c ≠ 0 →
        env2.attempt k = AttemptOutcome.exit lines2 c →
        (download_m3u8 env url of hs fp tm q cb (N : Int) d).1 =
          (download_m3u8 env2 url of hs fp tm q cb (N : Int) d).1 ∧
        (download_m3u8 env url of hs fp tm q cb (N : Int) d).2.filter isSleep =
          (download_m3u8 env2 url of hs fp tm q cb (N : Int) d).2.filter isSleep) ∧
    ("下载过程中出错: " ++ msg) ∈
      callbackTrace (download_m3u8 env url of hs fp tm q true (N : Int) d).2 := by
  have hto : ((N : Int) + 1).toNat = N + 1 := by omega
  constructor
  · intro env2 hfe hnow hagree lines2 c hc hk2
    have hex2 : env2.fileExists (resolveOutput of env2.now) = false := by
      rw [hfe, hnow]; exact hex
    have hpol : ∀ i ∈ List.range (N + 1),
        isSuccess (env.attempt i) = isSuccess (env2.attempt i) := by
      intro i _
      by_cases hik : i = k
      · subst hik
        rw [hk, hk2]
        simp [isSuccess, hc]
      · rw [hagree i hik]
    obtain ⟨h1, h2⟩ := runAttempts_policy (List.range (N + 1)) hpol
    constructor
    · rw [download_m3u8_run_fst env url of hs fp tm q cb (N : Int) d hex,
        download_m3u8_run_fst env2 url of hs fp tm q cb (N : Int) d hex2,
        hnow, hto]
      exact h1
    · rw [download_m3u8_run_snd env url of hs fp tm q cb (N : Int) d hex,
        download_m3u8_run_snd env2 url of hs fp tm q cb (N : Int) d hex2,
        hnow, hto, List.filter_append, List.filter_append,
        filter_isSleep_logEvents, h2]
  · obtain ⟨t, ht⟩ := range_split k N hkN
    rw [download_m3u8_run_snd env url of hs fp tm q true (N : Int) d hex, hto, ht]
    have hpre : ∀ i ∈ List.range k, isSuccess (env.attempt i) = false :=
      fun i hi => hprev i (List.mem_range.mp hi)
    have hmem := @runAttempts_errmsg
      (buildCmd fp (buildHeadersStr (dictMerge default_headers (hs.getD [])))
        url tm (resolveOutput of env.now))
      (resolveOutput of env.now) q (N : Int) d env.attempt
      (List.range k) k t sp lines msg hpre hk
    rw [callbackTrace_append]
    exact List.mem_append.mpr (Or.inr hmem)

/-- C8 witness: a spawn-time exception at attempt 0 with `retry = 0`
behaves like exit code 1 and delivers the fault message. -/
theorem C8_witness :
    (download_m3u8 envExc "u" (some "o") none "ffmpeg" 600 true true
      ((0 : Nat) : Int) 5).1 =
      (download_m3u8 envAllFail "u" (some "o") none "ffmpeg" 600 true true
        ((0 : Nat) : Int) 5).1 ∧
    ("下载过程中出错: " ++ "boom") ∈
      callbackTrace (download_m3u8 envExc "u" (some "o") none "ffmpeg" 600
        true true ((0 : Nat) : Int) 5).2 := by
  have h := C8_exception_retry_policy envExc "u" (some "o") none "ffmpeg" 600
    true true 0 0 5 false [] "boom" (le_refl 0) rfl
    (fun j hj => absurd hj (Nat.not_lt_zero j)) rfl
  refine ⟨(h.1 envAllFail rfl rfl ?_ [] 1 (by decide) rfl).1, h.2⟩
  intro j hj
  simp [envExc, envAllFail, hj]

end M3U8
